import Mathlib

/-!
# OpenClaw-Robotics: verified embedding of the command core

A shallow embedding, in Lean 4, of the parts of the OpenClaw-Robotics
repository that carry the real invariants:

* `skill/robot-controller/command_parser.py` — the natural-language command
  parser (`CommandParser.parse`, `_parse_sequence`, `_extract_params` and the
  `ACTION_PATTERNS` table);
* `skill/robot-controller/skill.py` — the command dispatcher
  (`_execute_single`, `_execute_sequence`);
* `skill/robot-controller/robot_abc.py` and
  `skill/robot-controller/adapters/unitree_adapter.py` — the device-adapter
  contract and the Unitree adapters' `play_action`;
* `src/core/plugin_system.py` — the plugin registry
  (`register`, `unregister`, `get`, `initialize_all`, `start_all`,
  `stop_all`, `shutdown_all`) and the plugin state flags.

Python-specific conventions used throughout the embedding:

* Python `dict`s are insertion-ordered association lists
  (`List (String × _)`); insertion of a fresh key appends at the end,
  exactly as CPython dicts behave.
* Python exceptions are modelled with `Except String` (a raised exception
  carries its message) or, where a function only observes "some exception
  was raised", with an explicit outcome type.
* Python `float` values that occur here (distances, speeds, angles,
  confidences) are modelled as `ℚ`; every numeric literal appearing in the
  source (0.5, 0.85, 0.9, 1.0, 45, 90, …) is exactly representable in
  binary floating point, so the rational model is exact for the inputs the
  theorems evaluate.
* Unbounded recursion (`CommandParser.parse` recursing through
  `_parse_sequence`) is modelled with an explicit fuel parameter counting
  the remaining recursion depth; `none` is the result of exceeding the
  depth, i.e. of Python's `RecursionError`.
-/

namespace OpenClaw

/-! ## Value types (`command_parser.py`) -/

/-- `RobotCategory` enum from `command_parser.py`. -/
inductive RobotCategory where
  | quadruped
  | humanoid
  | manipulator
deriving DecidableEq, Repr

/-- A parameter value stored in a `ParsedCommand.params` dict.  The parser
puts rationals (distances, speeds, angles), strings (arm selection),
positions (3-element lists) and, for `"sequence"` commands, the list of
sub-task `{action, params}` dicts into the dict. -/
inductive PVal where
  | num (q : ℚ)
  | str (s : String)
  | pos (x y z : ℚ)
  | tasks (ts : List (String × List (String × PVal)))

/-- A parameter dict: insertion-ordered key/value pairs. -/
abbrev Params := List (String × PVal)

/-- `ParsedCommand` dataclass from `command_parser.py`. -/
structure ParsedCommand where
  rawCommand : String
  action : String
  params : Params
  robotCategory : RobotCategory
  confidence : ℚ

/-! ## String helpers

Python string operations used by the parser, over `List Char`
(`String.data`). -/

/-- `pat` is a prefix of `s` (character-wise). -/
def listStartsWith : List Char → List Char → Bool
  | [], _ => true
  | _ :: _, [] => false
  | p :: ps, c :: cs => p == c && listStartsWith ps cs

/-- `pat` occurs somewhere in `s`: the Python `pat in s` test. -/
def listHasInfix (pat : List Char) : List Char → Bool
  | [] => pat.isEmpty
  | c :: cs => listStartsWith pat (c :: cs) || listHasInfix pat cs

/-- Python `pat in s` on strings. -/
def pyContains (s pat : String) : Bool :=
  listHasInfix pat.data s.data

/-- Python `s.strip()`: drop leading and trailing whitespace.  (Python
strips a slightly larger whitespace set than ASCII; none of the extra
characters occur in command text.) -/
def pyStrip (s : String) : String :=
  String.mk (((s.data.dropWhile Char.isWhitespace).reverse.dropWhile Char.isWhitespace).reverse)

/-- Split a character list on a separator character (used for the
integer/fraction split in `float(s)`). -/
def splitOnCharGo (sep : Char) (acc : List Char) : List Char → List (List Char)
  | [] => [acc.reverse]
  | c :: cs =>
      if c == sep then acc.reverse :: splitOnCharGo sep [] cs
      else splitOnCharGo sep (c :: acc) cs

/-- Maximal run of leading decimal digits. -/
def leadingDigits : List Char → Nat
  | [] => 0
  | c :: cs => if c.isDigit then leadingDigits cs + 1 else 0

/-- Number of leading characters matched by `.` (any char except newline). -/
def leadingNonNewline : List Char → Nat
  | [] => 0
  | c :: cs => if c == '\n' then 0 else leadingNonNewline cs + 1

/-- Reads a nonempty all-digit string as a natural number; `none` otherwise.
Used to model Python `int(s)` / the integer part of `float(s)` on the
capture strings the regexes produce. -/
def digitsToNat? (cs : List Char) : Option Nat :=
  if cs.isEmpty then none
  else if cs.all Char.isDigit then
    some (cs.foldl (fun a c => a * 10 + (c.toNat - 48)) 0)
  else none

/-- Python `float(s)` restricted to the shapes that reach it here: the
capture strings are either all-digit (`"45"`), digits-dot-digits (`"2.5"`),
or non-numeric text (`"前进"`, which makes `float` raise, i.e. `none`). -/
def pyFloat (s : String) : Option ℚ :=
  match splitOnCharGo '.' [] s.data with
  | [a] => (digitsToNat? a).map (fun n => (n : ℚ))
  | [a, b] => do
      let x ← digitsToNat? a
      let y ← digitsToNat? b
      pure ((x : ℚ) + (y : ℚ) / (10 : ℚ) ^ b.length)
  | _ => none

/-- Python `int(s)` on capture strings: all-digit strings parse, anything
else (`"4.5"`, `"前进"`) raises, i.e. `none`. -/
def pyInt (s : String) : Option ℤ :=
  (digitsToNat? s.data).map (fun n => (n : ℤ))

/-! ## A small regex engine

`ACTION_PATTERNS` uses only: literal text, alternation `(a|b|…)`,
capturing groups, `\d+` , the optional fractional part `(?:\.\d+)?`,
single-character optionality `?`, the character class `[,，]` and `.*`.
`rxRun` returns every way a pattern can match a prefix of the input, in
Python's backtracking preference order (alternation left-to-right,
quantifiers greedy/longest-first, earlier components varying slowest), so
that `List.head?` of the result is the match Python's engine would pick.
`rxSearch` scans start positions left to right like `re.search`. -/

inductive Rx where
  | lit (s : String)
  | cat (a b : Rx)
  | alt (a b : Rx)
  | digits
  | opt (a : Rx)
  | group (n : Nat) (a : Rx)
  | cls (cs : List Char)
  | dotStar
deriving Repr

/-- One match candidate: consumed characters, remaining input, and the
`(group number, captured text)` assignments made so far. -/
abbrev RxOut := List Char × List Char × List (Nat × String)

/-- All prefix matches of `r` against `cs`, best (Python-preferred) first. -/
def rxRun : Rx → List Char → List RxOut
  | .lit s, cs =>
      if listStartsWith s.data cs then [(s.data, cs.drop s.data.length, [])] else []
  | .cat a b, cs =>
      (rxRun a cs).flatMap fun o1 =>
        (rxRun b o1.2.1).map fun o2 =>
          (o1.1 ++ o2.1, o2.2.1, o1.2.2 ++ o2.2.2)
  | .alt a b, cs => rxRun a cs ++ rxRun b cs
  | .digits, cs =>
      let k := leadingDigits cs
      (List.range k).map fun i => (cs.take (k - i), cs.drop (k - i), [])
  | .opt a, cs => rxRun a cs ++ [([], cs, [])]
  | .group n a, cs =>
      (rxRun a cs).map fun o => (o.1, o.2.1, o.2.2 ++ [(n, String.mk o.1)])
  | .cls l, cs =>
      match cs with
      | [] => []
      | c :: rest => if l.contains c then [([c], rest, [])] else []
  | .dotStar, cs =>
      let k := leadingNonNewline cs
      (List.range (k + 1)).map fun i => (cs.take (k - i), cs.drop (k - i), [])

/-- `re.search`: try each start position left to right, return the first
position's preferred match (its captured groups). -/
def rxSearch (r : Rx) : List Char → Option (List (Nat × String))
  | [] => (rxRun r []).head?.map fun o => o.2.2
  | c :: cs =>
      match (rxRun r (c :: cs)).head? with
      | some o => some o.2.2
      | none => rxSearch r cs

/-- `match.group(n)`: the text of the last assignment to group `n`
(`none` when the group did not participate). -/
def groupGet (gs : List (Nat × String)) (n : Nat) : Option String :=
  gs.reverse.lookup n

/-! ## `CommandParser.ACTION_PATTERNS`

The table from `command_parser.py`, in declaration order (Python dicts are
insertion-ordered, and `parse` iterates actions and per-action patterns in
that order). -/

/-- `\d+(?:\.\d+)?` -/
def numRx : Rx := .cat .digits (.opt (.cat (.lit ".") .digits))

/-- The `ACTION_PATTERNS` table: each entry is
`(action, ordered list of compiled patterns)`. -/
def ACTION_PATTERNS : List (String × List Rx) :=
  [ ("forward",
      [ .cat (.group 1 (.alt (.lit "向前") (.alt (.lit "前进")
            (.alt (.lit "往前走") (.lit "朝前走")))))
          (.cat (.group 2 numRx) (.opt (.lit "米"))),
        .cat (.lit "前进") (.cat (.group 1 numRx) (.opt (.lit "米"))) ]),
    ("backward",
      [ .cat (.group 1 (.alt (.lit "向后") (.alt (.lit "后退") (.lit "往后走"))))
          (.cat (.group 2 numRx) (.opt (.lit "米"))) ]),
    ("turn_left",
      [ .cat (.lit "左转") (.cat (.group 1 numRx) (.opt (.lit "度"))),
        .cat (.lit "逆时针转") (.cat (.group 1 numRx) (.opt (.lit "度"))) ]),
    ("turn_right",
      [ .cat (.lit "右转") (.cat (.group 1 numRx) (.opt (.lit "度"))),
        .cat (.lit "顺时针转") (.cat (.group 1 numRx) (.opt (.lit "度"))) ]),
    ("stand",
      [ .group 1 (.alt (.cat (.lit "站") (.opt (.lit "起")))
          (.alt (.lit "起来") (.alt (.lit "站立") (.lit "站起来")))),
        .lit "起立" ]),
    ("sit", [ .lit "坐下", .lit "蹲下" ]),
    ("lie_down", [ .lit "躺下", .lit "卧倒" ]),
    ("wave", [ .lit "挥手", .lit "招手" ]),
    ("handshake", [ .lit "握手" ]),
    ("grasp", [ .group 1 (.alt (.lit "抓") (.alt (.lit "握") (.lit "拿起"))) ]),
    ("release", [ .group 1 (.alt (.lit "放下") (.alt (.lit "松开") (.lit "释放"))) ]),
    ("go_to",
      [ .cat (.lit "去") (.cat (.group 1 .digits) (.cat (.cls [',', '，'])
          (.cat (.group 2 .digits) (.cat .dotStar (.lit "位置"))))),
        .cat (.lit "导航到") (.cat (.group 1 .digits)
          (.cat (.cls [',', '，']) (.group 2 .digits))) ]),
    ("get_battery", [ .cat (.group 1 (.alt (.lit "查看") (.lit "获取"))) (.lit "电量") ]),
    ("get_pose", [ .cat (.group 1 (.alt (.lit "获取") (.lit "查看"))) (.lit "位置") ]),
    ("stop", [ .group 1 (.alt (.lit "停止") (.alt (.lit "停下") (.lit "暂停"))) ]) ]

/-- Try the patterns of one action in order; first hit wins
(`pattern.search(command)` in the inner loop of `parse`). -/
def firstPat : List Rx → List Char → Option (List (Nat × String))
  | [], _ => none
  | p :: ps, cs =>
      match rxSearch p cs with
      | some g => some g
      | none => firstPat ps cs

/-- Try each action's patterns in declaration order; the first action whose
first matching pattern fires wins (the outer loop of `parse`). -/
def firstMatchIn : List (String × List Rx) → List Char → Option (String × List (Nat × String))
  | [], _ => none
  | (act, pats) :: rest, cs =>
      match firstPat pats cs with
      | some g => some (act, g)
      | none => firstMatchIn rest cs

/-! ## `CommandParser._extract_params` -/

/-- `_extract_params(action, match, original)`, translated clause by clause.

* forward/backward: `params["distance"] = float(match.group(1)) if
  match.group(1) else 1.0`, falling back to `1.0` when `float` raises;
  `params["speed"] = 0.5`.
* turn_left / turn_right: `int(match.group(1))` (negated for turn_right)
  with fallbacks `45` / `-45`.
* go_to: `[float(g1), float(g2), 0.0]` guarded by a bare `except: pass`.
* grasp/release: scan the original text for `"左手"` / `"右手"`,
  defaulting to `"right"`. -/
def extractParams (action : String) (gs : List (Nat × String)) (original : String) : Params :=
  if action = "forward" || action = "backward" then
    [("distance", .num (match groupGet gs 1 with
        | none => 1
        | some s => if s = "" then 1 else (pyFloat s).getD 1)),
     ("speed", .num (1/2))]
  else if action = "turn_left" then
    [("angle", .num (match groupGet gs 1 with
        | none => 45
        | some s => if s = "" then 45 else
            match pyInt s with
            | some k => (k : ℚ)
            | none => 45))]
  else if action = "turn_right" then
    [("angle", .num (match groupGet gs 1 with
        | none => -45
        | some s => if s = "" then -45 else
            match pyInt s with
            | some k => -(k : ℚ)
            | none => -45))]
  else if action = "go_to" then
    match groupGet gs 1, groupGet gs 2 with
    | some a, some b =>
        match pyFloat a, pyFloat b with
        | some x, some y => [("position", .pos x y 0)]
        | _, _ => []
    | _, _ => []
  else if action = "grasp" || action = "release" then
    if pyContains original "左手" then [("arm", .str "left")]
    else if pyContains original "右手" then [("arm", .str "right")]
    else [("arm", .str "right")]
  else []

/-! ## Sequence splitting (`re.split(r"(然后|再|接着)+", command)`)

`re.split` with a capturing group returns the captured separator text as
elements of the result list, between the ordinary segments; with `+`, a
maximal run of connectives forms one separator and the capture is the
*last* repetition.  (Checked against CPython:
`re.split(r"(然后|再|接着)+", "左转45然后右转90")` is
`['左转45', '然后', '右转90']` and on `"然后"` it is `['', '然后', '']`.) -/

/-- Match a maximal nonempty run of connectives (`然后`, `再`, `接着`) at the
head of the input; returns the last connective matched (the capture) and
the rest.  The three alternatives start with distinct characters, so the
regex alternation is deterministic. -/
def connPlus : List Char → Option (String × List Char)
  | '然' :: '后' :: rest =>
      some (match connPlus rest with
            | some r => r
            | none => ("然后", rest))
  | '再' :: rest =>
      some (match connPlus rest with
            | some r => r
            | none => ("再", rest))
  | '接' :: '着' :: rest =>
      some (match connPlus rest with
            | some r => r
            | none => ("接着", rest))
  | _ => none

/-- Left-to-right scan for separator runs.  `fuel` only bounds the number
of iterations; every step consumes at least one character, so the initial
fuel `length + 1` supplied by `pySplitSeq` is never exhausted. -/
def pySplitGo : Nat → List Char → List Char → List String
  | 0, acc, _ => [String.mk acc.reverse]
  | _ + 1, acc, [] => [String.mk acc.reverse]
  | n + 1, acc, c :: cs =>
      match connPlus (c :: cs) with
      | some (cap, rest) => String.mk acc.reverse :: cap :: pySplitGo n [] rest
      | none => pySplitGo n (c :: acc) cs

/-- `re.split(r"(然后|再|接着)+", s)`. -/
def pySplitSeq (s : String) : List String :=
  pySplitGo (s.data.length + 1) [] s.data

/-- The sequence test in `parse`:
`"然后" in command or "再" in command or "接着" in command`. -/
def hasConnective (command : String) : Bool :=
  pyContains command "然后" || pyContains command "再" || pyContains command "接着"

/-! ## `CommandParser.parse` / `_parse_sequence`

`parse` and `_parse_sequence` are mutually recursive in the source with no
decreasing measure (the split parts are re-parsed, and — because `re.split`
returns the captured connectives as parts — a connective part re-enters
`_parse_sequence` on itself).  The embedding makes the recursion depth an
explicit fuel parameter: `none` models Python's `RecursionError`. -/

/-- The loop body of `_parse_sequence`: parse each nonempty stripped part
with the given parse function, keep `{action, params}` of the parts whose
action is not `"unknown"`.  A `none` from a recursive parse (exceeded
recursion depth) propagates, as the corresponding Python exception would. -/
def collectTasksWith (p : String → Option ParsedCommand)
    (parts : List String) : Option (List (String × Params)) :=
  parts.foldr
    (fun part acc =>
      if pyStrip part = "" then acc
      else
        (p (pyStrip part)).bind fun parsed =>
          acc.map fun ts =>
            if parsed.action = "unknown" then ts
            else (parsed.action, parsed.params) :: ts)
    (some [])

/-- One level of `CommandParser.parse(command, robot_type)`, parameterized
by the function used for the nested `parse` calls that
`_parse_sequence` makes. -/
def parseWith (p : String → RobotCategory → Option ParsedCommand)
    (command : String) (rt : RobotCategory) : Option ParsedCommand :=
  let cmd := pyStrip command
  if hasConnective cmd then
    -- `_parse_sequence(command, robot_type)`
    match collectTasksWith (fun s => p s rt) (pySplitSeq cmd) with
    | none => none
    | some ts =>
        some ⟨cmd, "sequence", [("tasks", .tasks ts)], rt, 17/20⟩
  else
    match firstMatchIn ACTION_PATTERNS cmd.data with
    | some (act, gs) =>
        some ⟨cmd, act, extractParams act gs cmd, rt, 9/10⟩
    | none => some ⟨cmd, "unknown", [], rt, 0⟩

/-- `CommandParser.parse(command, robot_type)` with explicit recursion
fuel.  Fuel `0` means the recursion limit is exceeded (`RecursionError`);
each nested `parse` call (via `_parse_sequence`) runs one level deeper. -/
def parseFuel : Nat → String → RobotCategory → Option ParsedCommand
  | 0 => fun _ _ => none
  | n + 1 => parseWith (parseFuel n)

/-! ## Task results and adapters (`robot_abc.py`, `adapters/unitree_adapter.py`) -/

/-- `TaskResult` dataclass: success flag, message, optional payload. -/
structure TaskResult where
  success : Bool
  message : String
  data : Option String := none
deriving DecidableEq, Repr

/-- The concrete Unitree adapter classes in
`adapters/unitree_adapter.py`.  `go1` subclasses `go2` changing only
name/code constants; `h1` likewise subclasses `g1`. -/
inductive UnitreeModel where
  | go2
  | go1
  | g1
  | h1
deriving DecidableEq, Repr

/-- The per-adapter action table.  `UnitreeGO2Adapter.play_action` declares
`{"wave": "Wave hand", "handshake": "Handshake", "dance": "Dance"}` (and
GO1 inherits it); the G1/H1 `play_action` declares no table at all. -/
def actionsTable : UnitreeModel → List (String × String)
  | .go2 | .go1 => [("wave", "Wave hand"), ("handshake", "Handshake"), ("dance", "Dance")]
  | .g1 | .h1 => []

/-- `RobotBase.play_action` default implementation: always a failed
result. -/
def playActionBase (actionName : String) : TaskResult :=
  ⟨false, "Action " ++ actionName ++ " not defined", none⟩

/-- `play_action` as overridden by the Unitree adapters:

* GO2/GO1 look the name up in their table and fail on unknown names;
* G1/H1 return `TaskResult(True, f"Play action: {action_name}")` for
  every name. -/
def playActionOf (m : UnitreeModel) (actionName : String) : TaskResult :=
  match m with
  | .go2 | .go1 =>
      match (actionsTable m).lookup actionName with
      | some desc => ⟨true, "Play action: " ++ desc, none⟩
      | none => ⟨false, "Unknown action: " ++ actionName, none⟩
  | .g1 | .h1 => ⟨true, "Play action: " ++ actionName, none⟩

/-! ## The command dispatcher (`skill.py`)

`_execute_single` wraps every adapter interaction in one `try/except`; an
exception anywhere inside the branch becomes `{"success": False, "error":
str(e)}`.  The active robot is modelled as a record of methods, each of
which either returns a `TaskResult` or raises (`Except.error`); the
dispatcher's observable adapter interactions (including `time.sleep`) are
recorded as an event list. -/

/-- One observable dispatcher-to-adapter interaction. -/
inductive Call where
  | move (vx vy yawRate : ℚ)
  | stopC
  | standC
  | sitC
  | playAct (name : String)
  | goTo (pos : List ℚ)
  | getState
  | sleep (seconds : ℚ)
deriving DecidableEq, Repr

/-- Snapshot of the state fields `_execute_single` reads. -/
structure RobotStateM where
  batteryLevel : ℚ
  position : List ℚ
deriving DecidableEq, Repr

/-- The active adapter (`_current_robot`): each method either returns a
`TaskResult` or raises. -/
structure Robot where
  move : ℚ → ℚ → ℚ → Except String TaskResult
  stopM : Except String TaskResult
  standM : Except String TaskResult
  sitM : Except String TaskResult
  playAction : String → Except String TaskResult
  goToM : List ℚ → Except String TaskResult
  getStateM : Except String RobotStateM

/-- The dict `_execute_single` returns: `{"success", "message"?,
"error"?, "battery"?, "position"?, "action"?}`. -/
structure DResult where
  success : Bool
  message : Option String := none
  error : Option String := none
  battery : Option String := none
  position : Option (List ℚ) := none
  action : Option String := none
deriving DecidableEq, Repr

/-- The common tail `return {"success": result.success, "message":
result.message, "action": action}`. -/
def fromTask (action : String) (r : TaskResult) : DResult :=
  { success := r.success, message := some r.message, action := some action }

/-- The `except` branch: `{"success": False, "error": str(e)}`. -/
def errDict (e : String) : DResult :=
  { success := false, error := some e }

/-- One adapter call followed by the common return. -/
def callOne (ev : Call) (x : Except String TaskResult) (action : String) :
    List Call × DResult :=
  match x with
  | .ok r => ([ev], fromTask action r)
  | .error e => ([ev], errDict e)

/-- `params.get(key, default)` for the numeric parameters the dispatcher
reads.  The parser only ever stores numbers under these keys, so the
non-numeric case cannot arise from a parsed command. -/
def getNumD (params : Params) (key : String) (d : ℚ) : ℚ :=
  match params.lookup key with
  | some (.num q) => q
  | _ => d

/-- `params.get("position", [0, 0, 0])` in the `go_to` branch. -/
def posParam (params : Params) : List ℚ :=
  match params.lookup "position" with
  | some (.pos x y z) => [x, y, z]
  | _ => [0, 0, 0]

/-- `_execute_single(action, params)`: the action dispatch chain of
`skill.py`, returning the adapter-interaction events and the result
dict. -/
def execSingle (rb : Robot) (action : String) (params : Params) :
    List Call × DResult :=
  if action = "forward" then
    let s := getNumD params "speed" (1/2)
    callOne (.move s 0 0) (rb.move s 0 0) action
  else if action = "backward" then
    let s := getNumD params "speed" (1/2)
    callOne (.move (-s) 0 0) (rb.move (-s) 0 0) action
  else if action = "turn_left" then
    let angle := getNumD params "angle" 45
    match rb.move 0 0 (1/2) with
    | .error e => ([.move 0 0 (1/2)], errDict e)
    | .ok _ =>
        match rb.stopM with
        | .error e => ([.move 0 0 (1/2), .sleep (|angle| / 45)], errDict e)
        | .ok _ =>
            ([.move 0 0 (1/2), .sleep (|angle| / 45), .stopC],
             fromTask action ⟨true, "Turned left " ++ toString angle ++ " degrees", none⟩)
  else if action = "turn_right" then
    let angle := |getNumD params "angle" 45|
    match rb.move 0 0 (-(1/2)) with
    | .error e => ([.move 0 0 (-(1/2))], errDict e)
    | .ok _ =>
        match rb.stopM with
        | .error e => ([.move 0 0 (-(1/2)), .sleep (|angle| / 45)], errDict e)
        | .ok _ =>
            ([.move 0 0 (-(1/2)), .sleep (|angle| / 45), .stopC],
             fromTask action ⟨true, "Turned right " ++ toString angle ++ " degrees", none⟩)
  else if action = "stand" then
    callOne .standC rb.standM action
  else if action = "sit" then
    callOne .sitC rb.sitM action
  else if action = "lie_down" then
    callOne (.playAct "lie_down") (rb.playAction "lie_down") action
  else if action = "wave" then
    callOne (.playAct "wave") (rb.playAction "wave") action
  else if action = "handshake" then
    callOne (.playAct "handshake") (rb.playAction "handshake") action
  else if action = "stop" then
    callOne .stopC rb.stopM action
  else if action = "go_to" then
    let pos := posParam params
    callOne (.goTo pos) (rb.goToM pos) action
  else if action = "get_battery" then
    match rb.getStateM with
    | .error e => ([.getState], errDict e)
    | .ok st =>
        ([.getState], { success := true, battery := some (toString st.batteryLevel ++ "%") })
  else if action = "get_pose" then
    match rb.getStateM with
    | .error e => ([.getState], errDict e)
    | .ok st => ([.getState], { success := true, position := some st.position })
  else
    ([], fromTask action ⟨false, "Unknown action: " ++ action, none⟩)

/-- `_execute_sequence(tasks)`: run `_execute_single` on every task in list
order, collect the per-task result dicts, and report overall success
`all(r.get("success", False) for r in results)`. -/
def execSequence (rb : Robot) (tasks : List (String × Params)) :
    List Call × Bool × List DResult :=
  let results := tasks.map fun t => execSingle rb t.1 t.2
  ((results.map Prod.fst).flatten,
   results.all fun r => r.2.success,
   results.map Prod.snd)

/-! ## Plugin registry (`src/core/plugin_system.py`)

`PluginBase` keeps two instance flags, `_is_initialized` and `_is_running`.
Its `start`/`stop` are concrete (they only toggle `_is_running`);
`initialize`/`shutdown` are abstract and the repository's implementations
do not touch the flags (the flags are toggled by `initialize_all` /
`shutdown_all`).  Subclasses may override any method with one that raises,
which is what the registry's `try/except` blocks are for; a plugin's
possible behaviours are therefore modelled as fixed per-plugin outcome
tags, and `check_dependencies()` (importability of `DEPENDENCIES`) as a
boolean. -/

/-- Outcome of the abstract `initialize()`: return `True`, return a falsy
value, or raise. -/
inductive InitBeh where
  | retTrue
  | retFalse
  | raises (msg : String)
deriving DecidableEq, Repr

/-- Behaviour of `start()` / `stop()`: the inherited `PluginBase` method
(which only toggles `_is_running` and never raises), or an override that
raises. -/
inductive MBeh where
  | base
  | raises (msg : String)
deriving DecidableEq, Repr

/-- Outcome of the abstract `shutdown()`: return normally or raise. -/
inductive SBeh where
  | ok
  | raises (msg : String)
deriving DecidableEq, Repr

/-- The constant data of a plugin class: identity, method behaviours, and
whether `check_dependencies()` succeeds. -/
structure PluginSpec where
  name : String
  version : String
  initBeh : InitBeh := .retTrue
  startBeh : MBeh := .base
  stopBeh : MBeh := .base
  shutBeh : SBeh := .ok
  depsOk : Bool := true
deriving DecidableEq, Repr

/-- A plugin instance: its class data plus the two lifecycle flags. -/
structure Plugin where
  spec : PluginSpec
  isInitialized : Bool
  isRunning : Bool
deriving DecidableEq, Repr

/-- `PluginBase.__init__`: both flags start false. -/
def freshPlugin (s : PluginSpec) : Plugin := ⟨s, false, false⟩

/-- The registry's two insertion-ordered dicts, `_plugins` and
`_metadata`, both keyed by `"name@version"`.  The metadata snapshot is
represented by the plugin's spec. -/
structure Registry where
  plugins : List (String × Plugin)
  metadata : List (String × PluginSpec)
deriving DecidableEq, Repr

/-- The empty registry. -/
def Registry.empty : Registry := ⟨[], []⟩

/-- A lifecycle method invocation on a plugin, recorded in call order. -/
inductive PEv where
  | initCall (key : String)
  | startCall (key : String)
  | stopCall (key : String)
  | shutdownCall (key : String)
deriving DecidableEq, Repr

/-- `full_name = f"{name}@{version}" if version else name`: the version
argument defaults to `None`, and an empty string is falsy too. -/
def fullNameOf (name : String) (version : Option String) : String :=
  match version with
  | none => name
  | some v => if v = "" then name else name ++ "@" ++ v

/-- `del d[key]` on an association list with unique keys. -/
def deleteKey {α : Type} (l : List (String × α)) (key : String) : List (String × α) :=
  l.filter fun e => e.1 != key

/-- In-place mutation of the plugin object stored under `key`. -/
def updateEntry (l : List (String × Plugin)) (key : String) (p : Plugin) :
    List (String × Plugin) :=
  l.map fun e => if e.1 = key then (key, p) else e

/-- `PluginRegistry.register(plugin)`: fail (no mutation) on a duplicate
`"name@version"` key or failing dependency check; otherwise append the
instance and its metadata snapshot to both dicts. -/
def register (σ : Registry) (s : PluginSpec) : Registry × Bool :=
  let key := s.name ++ "@" ++ s.version
  if (σ.plugins.lookup key).isSome then (σ, false)
  else if !s.depsOk then (σ, false)
  else (⟨σ.plugins ++ [(key, freshPlugin s)], σ.metadata ++ [(key, s)]⟩, true)

/-- `PluginRegistry.get(name, version)`. -/
def getPlugin (σ : Registry) (name : String) (version : Option String) : Option Plugin :=
  σ.plugins.lookup (fullNameOf name version)

/-- `PluginRegistry.unregister(name, version)`: if the key is present,
`stop()` when running, then `shutdown()` when initialized, then delete the
entry from both dicts.  There is no `try/except` here: a raising `stop` or
`shutdown` propagates (`Except.error`), leaving the entry in place (with
any flag mutation already performed by a completed `stop`). -/
def unregister (σ : Registry) (name : String) (version : Option String) :
    Registry × List PEv × Except String Unit :=
  let key := fullNameOf name version
  match σ.plugins.lookup key with
  | none => (σ, [], .ok ())
  | some p =>
      if p.isRunning then
        match p.spec.stopBeh with
        | .raises msg => (σ, [.stopCall key], .error msg)
        | .base =>
            let p1 : Plugin := { p with isRunning := false }
            if p1.isInitialized then
              match p.spec.shutBeh with
              | .raises msg =>
                  ({ σ with plugins := updateEntry σ.plugins key p1 },
                   [.stopCall key, .shutdownCall key], .error msg)
              | .ok =>
                  (⟨deleteKey σ.plugins key, deleteKey σ.metadata key⟩,
                   [.stopCall key, .shutdownCall key], .ok ())
            else
              (⟨deleteKey σ.plugins key, deleteKey σ.metadata key⟩,
               [.stopCall key], .ok ())
      else
        if p.isInitialized then
          match p.spec.shutBeh with
          | .raises msg => (σ, [.shutdownCall key], .error msg)
          | .ok =>
              (⟨deleteKey σ.plugins key, deleteKey σ.metadata key⟩,
               [.shutdownCall key], .ok ())
        else
          (⟨deleteKey σ.plugins key, deleteKey σ.metadata key⟩, [], .ok ())

/-- The loop of `initialize_all()`: skip plugins already initialized; call
`initialize()` otherwise; mark initialized on `True`; leave unmarked and
continue on a falsy return; on a raise, return `False` at once, leaving
the remaining plugins untouched (their `initialize()` is not called). -/
def initAllGo : List (String × Plugin) → List (String × Plugin) × List PEv × Bool
  | [] => ([], [], true)
  | (k, p) :: rest =>
      if p.isInitialized then
        let r := initAllGo rest
        ((k, p) :: r.1, r.2.1, r.2.2)
      else
        match p.spec.initBeh with
        | .retTrue =>
            let r := initAllGo rest
            ((k, { p with isInitialized := true }) :: r.1, .initCall k :: r.2.1, r.2.2)
        | .retFalse =>
            let r := initAllGo rest
            ((k, p) :: r.1, .initCall k :: r.2.1, r.2.2)
        | .raises _ => ((k, p) :: rest, [.initCall k], false)

/-- `PluginRegistry.initialize_all()`. -/
def initializeAll (σ : Registry) : Registry × List PEv × Bool :=
  let r := initAllGo σ.plugins
  ({ σ with plugins := r.1 }, r.2.1, r.2.2)

/-- The loop of `start_all()`: call `start()` on every plugin, but on a
raise return `False` at once — the remaining plugins' `start()` is never
attempted.  The inherited `start()` sets `_is_running` and returns `True`
(its return value is ignored). -/
def startAllGo : List (String × Plugin) → List (String × Plugin) × List PEv × Bool
  | [] => ([], [], true)
  | (k, p) :: rest =>
      match p.spec.startBeh with
      | .raises _ => ((k, p) :: rest, [.startCall k], false)
      | .base =>
          let r := startAllGo rest
          ((k, { p with isRunning := true }) :: r.1, .startCall k :: r.2.1, r.2.2)

/-- `PluginRegistry.start_all()`. -/
def startAll (σ : Registry) : Registry × List PEv × Bool :=
  let r := startAllGo σ.plugins
  ({ σ with plugins := r.1 }, r.2.1, r.2.2)

/-- The loop of `stop_all()`: call `stop()` on every plugin, logging and
continuing past a raise. -/
def stopAllGo : List (String × Plugin) → List (String × Plugin) × List PEv
  | [] => ([], [])
  | (k, p) :: rest =>
      let r := stopAllGo rest
      match p.spec.stopBeh with
      | .raises _ => ((k, p) :: r.1, .stopCall k :: r.2)
      | .base => ((k, { p with isRunning := false }) :: r.1, .stopCall k :: r.2)

/-- `PluginRegistry.stop_all()`. -/
def stopAll (σ : Registry) : Registry × List PEv :=
  let r := stopAllGo σ.plugins
  ({ σ with plugins := r.1 }, r.2)

/-- The loop of `shutdown_all()`: for every initialized plugin call
`shutdown()` and clear the flag, logging and continuing past a raise (a
raise happens before the flag is cleared). -/
def shutdownAllGo : List (String × Plugin) → List (String × Plugin) × List PEv
  | [] => ([], [])
  | (k, p) :: rest =>
      let r := shutdownAllGo rest
      if p.isInitialized then
        match p.spec.shutBeh with
        | .raises _ => ((k, p) :: r.1, .shutdownCall k :: r.2)
        | .ok => ((k, { p with isInitialized := false }) :: r.1, .shutdownCall k :: r.2)
      else
        ((k, p) :: r.1, r.2)

/-- `PluginRegistry.shutdown_all()`. -/
def shutdownAll (σ : Registry) : Registry × List PEv :=
  let r := shutdownAllGo σ.plugins
  ({ σ with plugins := r.1 }, r.2)

/-! ## Operation sequences over the registry

For the state-machine claims, a client may interleave registry-level
operations with direct lifecycle calls on registered plugin instances
(`plugin.initialize()`, `plugin.start()`, `plugin.stop()`,
`plugin.shutdown()`).  Direct `initialize`/`shutdown` calls do not toggle
the flags (the abstract methods' implementations in the repository never
do); direct `start`/`stop` toggle `_is_running` exactly as `PluginBase`
does, unless overridden by a raising method, which then has no effect on
the flags. -/

/-- One client operation. -/
inductive Op where
  | registerOp (s : PluginSpec)
  | unregisterOp (name : String) (version : Option String)
  | initializeAllOp
  | startAllOp
  | stopAllOp
  | shutdownAllOp
  | initP (key : String)
  | startP (key : String)
  | stopP (key : String)
  | shutdownP (key : String)

/-- Effect of one operation: next registry state plus the lifecycle calls
it performed. -/
def stepOp (σ : Registry) : Op → Registry × List PEv
  | .registerOp s => ((register σ s).1, [])
  | .unregisterOp n v =>
      let r := unregister σ n v
      (r.1, r.2.1)
  | .initializeAllOp =>
      let r := initializeAll σ
      (r.1, r.2.1)
  | .startAllOp =>
      let r := startAll σ
      (r.1, r.2.1)
  | .stopAllOp => stopAll σ
  | .shutdownAllOp => shutdownAll σ
  | .initP key =>
      match σ.plugins.lookup key with
      | none => (σ, [])
      | some _ => (σ, [.initCall key])
  | .startP key =>
      match σ.plugins.lookup key with
      | none => (σ, [])
      | some p =>
          match p.spec.startBeh with
          | .raises _ => (σ, [.startCall key])
          | .base =>
              ({ σ with plugins := updateEntry σ.plugins key { p with isRunning := true } },
               [.startCall key])
  | .stopP key =>
      match σ.plugins.lookup key with
      | none => (σ, [])
      | some p =>
          match p.spec.stopBeh with
          | .raises _ => (σ, [.stopCall key])
          | .base =>
              ({ σ with plugins := updateEntry σ.plugins key { p with isRunning := false } },
               [.stopCall key])
  | .shutdownP key =>
      match σ.plugins.lookup key with
      | none => (σ, [])
      | some _ => (σ, [.shutdownCall key])

/-- Run a sequence of operations from a given state, collecting all
lifecycle calls in order. -/
def runOpsFrom (σ : Registry) : List Op → Registry × List PEv
  | [] => (σ, [])
  | op :: ops =>
      let r := stepOp σ op
      let rest := runOpsFrom r.1 ops
      (rest.1, r.2 ++ rest.2)

/-- Run a sequence of operations from the empty registry. -/
def runOps (ops : List Op) : Registry × List PEv :=
  runOpsFrom Registry.empty ops

/-- Does this `initialize()` behaviour raise? -/
def InitBeh.raisesB : InitBeh → Bool
  | .raises _ => true
  | _ => false

/-- Does this `start()`/`stop()` behaviour raise? -/
def MBeh.raisesB : MBeh → Bool
  | .raises _ => true
  | _ => false

/-! ## Concrete fixtures used by counterexamples and witnesses -/

/-- A well-behaved plugin class. -/
def specOk : PluginSpec := { name := "ok", version := "1" }

/-- A plugin class whose `initialize()` returns `False`. -/
def specInitFalse : PluginSpec := { name := "a", version := "1", initBeh := .retFalse }

/-- A plugin class whose `initialize()` returns `True`. -/
def specInitTrue : PluginSpec := { name := "b", version := "1" }

/-- A plugin class whose `start()` override raises. -/
def specStartRaises : PluginSpec := { name := "a", version := "1", startBeh := .raises "boom" }

/-- A plugin class whose `initialize()` raises. -/
def specInitRaises : PluginSpec := { name := "c", version := "1", initBeh := .raises "boom" }

/-- A plugin class whose name itself contains the `"@"` separator. -/
def specAtName : PluginSpec := { name := "a@b", version := "c" }

/-- A plain plugin class named `"a"`, version `"b"`: it registers under the
key `"a@b"`, which collides with `specAtName`'s bare *name*. -/
def specPlainAB : PluginSpec := { name := "a", version := "b" }

/-- A registry holding an `initialize()=False` plugin followed by an
`initialize()=True` plugin (in registration order). -/
def regFalseTrue : Registry :=
  (register (register Registry.empty specInitFalse).1 specInitTrue).1

/-- A registry holding a raising-`start()` plugin followed by a
well-behaved plugin (in registration order). -/
def regRaiseOk : Registry :=
  (register (register Registry.empty specStartRaises).1 specInitTrue).1

/-- A registry whose single plugin `"w@1"` is Running and Initialized. -/
def regRunning : Registry :=
  ⟨[("w@1", ⟨{ name := "w", version := "1" }, true, true⟩)],
   [("w@1", { name := "w", version := "1" })]⟩

/-- An adapter whose `play_action` raises and whose other methods
succeed. -/
def rbw : Robot :=
  { move := fun vx vy yawRate =>
      .ok ⟨true, "Move: vx=" ++ toString vx ++ ", vy=" ++ toString vy
        ++ ", yaw_rate=" ++ toString yawRate, none⟩,
    stopM := .ok ⟨true, "Stop command executed", none⟩,
    standM := .ok ⟨true, "Stand command executed", none⟩,
    sitM := .ok ⟨true, "Sit command executed", none⟩,
    playAction := fun _ => .error "boom",
    goToM := fun pos => .ok ⟨true, "Navigate to " ++ toString pos, none⟩,
    getStateM := .ok ⟨85, [0, 0, 2/5]⟩ }

/-! # Theorems -/

/-! ## Parser claims

`"左转45"` / `"右转90"` are the locale forms of "turn left 45" / "turn
right 90"; `"然后"` is the sequence connective ("then"); `"前进2"` is the
locale form of "forward 2". -/

/-- `parse` never returns on the bare connective `"然后"`: whatever the
remaining recursion depth, the sequence branch re-parses the connective
itself (because `re.split` with a capturing group returns the separator as
a list element), so the fuel always runs out.  This is the Lean image of
Python's unbounded `parse → _parse_sequence → parse` recursion on this
input, which ends in a `RecursionError`. -/
theorem parseFuel_connective_none (n : Nat) (rt : RobotCategory) :
    parseFuel n "然后" rt = none := by
  induction n with
  | zero => rfl
  | succ n ih =>
      have hstep : parseFuel (n + 1) "然后" rt =
          match collectTasksWith (fun s => parseFuel n s rt) ["", "然后", ""] with
          | none => none
          | some ts => some ⟨"然后", "sequence", [("tasks", .tasks ts)], rt, 17/20⟩ := rfl
      have hcollect : collectTasksWith (fun s => parseFuel n s rt) ["", "然后", ""] =
          (parseFuel n "然后" rt).bind fun parsed =>
            (collectTasksWith (fun s => parseFuel n s rt) [""]).map fun ts =>
              if parsed.action = "unknown" then ts
              else (parsed.action, parsed.params) :: ts := rfl
      rw [hstep, hcollect, ih]
      rfl

/-- C9: the command parser is **not** total.  On the input `"然后"` (a bare
sequence connective) `parse` exhausts every recursion depth — the Python
code raises `RecursionError` instead of returning a `ParsedCommand`.  The
claim's statement is the intended behaviour (§7 of the spec: parse
failures never escape as exceptions); the code's sequence split returns
the captured connective as a segment and re-parses it forever. -/
theorem c9_theorem (n : Nat) (rt : RobotCategory) :
    parseFuel n "然后" rt = none :=
  parseFuel_connective_none n rt

/-- C1: parsing `"左转45然后右转90"` ("turn left 45 then turn right 90")
does **not** return a sequence command: `re.split(r"(然后|再|接着)+", ·)`
yields `["左转45", "然后", "右转90"]` including the captured connective,
and re-parsing the `"然后"` segment recurses without bound, so the whole
parse exhausts every recursion depth (Python: `RecursionError`) instead of
producing `action="sequence"` with two sub-tasks. -/
theorem c1_theorem (n : Nat) (rt : RobotCategory) :
    parseFuel n "左转45然后右转90" rt = none := by
  match n with
  | 0 => rfl
  | 1 => rfl
  | m + 2 =>
      have hstep : parseFuel (m + 2) "左转45然后右转90" rt =
          match collectTasksWith (fun s => parseFuel (m + 1) s rt)
              ["左转45", "然后", "右转90"] with
          | none => none
          | some ts =>
              some ⟨"左转45然后右转90", "sequence", [("tasks", .tasks ts)], rt, 17/20⟩ := rfl
      have hL : parseFuel (m + 1) "左转45" rt =
          some ⟨"左转45", "turn_left", [("angle", .num 45)], rt, 9/10⟩ := rfl
      have hcons1 : collectTasksWith (fun s => parseFuel (m + 1) s rt)
            ["左转45", "然后", "右转90"] =
          (parseFuel (m + 1) "左转45" rt).bind fun parsed =>
            (collectTasksWith (fun s => parseFuel (m + 1) s rt) ["然后", "右转90"]).map
              fun ts =>
                if parsed.action = "unknown" then ts
                else (parsed.action, parsed.params) :: ts := rfl
      have hcons2 : collectTasksWith (fun s => parseFuel (m + 1) s rt) ["然后", "右转90"] =
          (parseFuel (m + 1) "然后" rt).bind fun parsed =>
            (collectTasksWith (fun s => parseFuel (m + 1) s rt) ["右转90"]).map
              fun ts =>
                if parsed.action = "unknown" then ts
                else (parsed.action, parsed.params) :: ts := rfl
      rw [hstep, hcons1, hL, Option.some_bind, hcons2,
        parseFuel_connective_none (m + 1) rt, Option.none_bind]
      rfl

/-- C5: parsing `"前进2"` ("forward 2") yields `action="forward"` and
`confidence=0.9` as claimed, but `distance = 1.0`, **not** `2.0`: the
first forward pattern captures the verb `"前进"` as group 1 and the
number as group 2, `float("前进")` raises, and the `except` fallback
`1.0` applies.  (The second forward pattern, which captures the number as
group 1, is unreachable because the first also matches everything it
matches.) -/
theorem c5_theorem (n : Nat) :
    parseFuel (n + 1) "前进2" .quadruped =
      some ⟨"前进2", "forward", [("distance", .num 1), ("speed", .num (1/2))],
        .quadruped, 9/10⟩ :=
  rfl

/-! ## Adapter claim (C6) -/

/-- C6 counterexample: the G1 humanoid adapter's `play_action` succeeds on
`"backflip"` even though `"backflip"` is in no action table of that
adapter — refuting "for every adapter …, unknown names return a failed
result". -/
theorem c6_counterexample :
    (playActionOf .g1 "backflip").success = true ∧
    (actionsTable .g1).lookup "backflip" = none :=
  ⟨rfl, rfl⟩

/-- C6 (amended): the base `play_action` and the GO2/GO1 adapters return a
failed result for every name outside their action table; the G1/H1
adapters instead return a *successful* result for **every** name. -/
theorem c6_theorem :
    (∀ name : String, (actionsTable .go2).lookup name = none →
      (playActionOf .go2 name).success = false) ∧
    (∀ name : String, (actionsTable .go1).lookup name = none →
      (playActionOf .go1 name).success = false) ∧
    (∀ name : String, (playActionBase name).success = false) ∧
    (∀ name : String, (playActionOf .g1 name).success = true) ∧
    (∀ name : String, (playActionOf .h1 name).success = true) := by
  refine ⟨?_, ?_, fun _ => rfl, fun _ => rfl, fun _ => rfl⟩ <;>
    · intro name h
      simp [playActionOf, h]

/-- C6 witness: the amended theorem applied at the unknown name
`"backflip"`. -/
theorem c6_witness :
    (playActionOf .go2 "backflip").success = false ∧
    (playActionOf .go1 "backflip").success = false :=
  ⟨c6_theorem.1 "backflip" rfl, c6_theorem.2.1 "backflip" rfl⟩

/-! ## Registry bulk-operation claims (C2, C3) -/

/-- C2 counterexample: with plugin `"a@1"` whose `initialize()` returns
`False` registered before plugin `"b@1"`, `initialize_all()` still calls
`"b@1"`'s `initialize()` and returns `True` — refuting "stops and returns
failure at the first plugin whose `initialize()` raises *or returns
false*".  Only a raise aborts the loop. -/
theorem c2_counterexample :
    (initializeAll regFalseTrue).2.2 = true ∧
    (initializeAll regFalseTrue).2.1 = [.initCall "a@1", .initCall "b@1"] :=
  ⟨rfl, rfl⟩

/-- C2 (amended): `initialize_all()` stops and returns failure at the
first plugin whose `initialize()` **raises**; no later plugin's
`initialize()` runs in that cycle (the recorded calls end exactly at the
raising plugin).  A plugin whose `initialize()` merely returns false is
left unmarked and the loop continues. -/
theorem c2_theorem
    (pre : List (String × Plugin)) (k : String) (p : Plugin) (msg : String)
    (post : List (String × Plugin))
    (hpre : ∀ e ∈ pre, e.2.isInitialized = true ∨ e.2.spec.initBeh.raisesB = false)
    (hini : p.isInitialized = false) (hbeh : p.spec.initBeh = .raises msg) :
    (initAllGo (pre ++ (k, p) :: post)).2.2 = false ∧
    (initAllGo (pre ++ (k, p) :: post)).2.1 = (initAllGo pre).2.1 ++ [PEv.initCall k] := by
  induction pre with
  | nil => simp [initAllGo, hini, hbeh]
  | cons e rest ih =>
      obtain ⟨ek, ep⟩ := e
      have hee := hpre (ek, ep) (List.mem_cons_self _ _)
      have ihh := ih (fun x hx => hpre x (List.mem_cons_of_mem _ hx))
      by_cases hi : ep.isInitialized = true
      · simpa [initAllGo, hi, ihh.2] using ihh.1
      · have hi' : ep.isInitialized = false := by
          simpa using hi
        rcases hee with h | h
        · exact absurd h hi
        · cases hb : ep.spec.initBeh with
          | retTrue => simpa [initAllGo, hi', hb, ihh.2] using ihh.1
          | retFalse => simpa [initAllGo, hi', hb, ihh.2] using ihh.1
          | raises m =>
              rw [hb] at h
              simp [InitBeh.raisesB] at h

/-- C2 witness: the amended theorem applied to a concrete registry list —
a healthy plugin followed by a raising one. -/
theorem c2_witness :
    (initAllGo ([("b@1", freshPlugin specInitTrue)] ++
      ("c@1", freshPlugin specInitRaises) :: [])).2.2 = false ∧
    (initAllGo ([("b@1", freshPlugin specInitTrue)] ++
      ("c@1", freshPlugin specInitRaises) :: [])).2.1 =
      (initAllGo [("b@1", freshPlugin specInitTrue)]).2.1 ++ [PEv.initCall "c@1"] :=
  c2_theorem [("b@1", freshPlugin specInitTrue)] "c@1" (freshPlugin specInitRaises)
    "boom" [] (by decide) rfl rfl

/-- C3 counterexample: with a raising-`start()` plugin `"a@1"` registered
before the healthy `"b@1"`, `start_all()` returns `False` after calling
only `"a@1"`'s `start()` — `"b@1"` is never attempted, refuting "log and
continue … attempting every remaining plugin" for `start_all`. -/
theorem c3_counterexample :
    (startAll regRaiseOk).2.2 = false ∧
    (startAll regRaiseOk).2.1 = [.startCall "a@1"] :=
  ⟨rfl, rfl⟩

/-- C3 (amended): `stop_all()` and `shutdown_all()` do log and continue —
`stop()` is attempted on every registered plugin, and `shutdown()` on
every initialized one, regardless of earlier failures.  `start_all()`,
however, returns `False` at the first plugin whose `start()` raises and
never attempts the remaining plugins. -/
theorem c3_theorem :
    (∀ (l : List (String × Plugin)) (k : String) (p : Plugin),
      (k, p) ∈ l → PEv.stopCall k ∈ (stopAllGo l).2) ∧
    (∀ (l : List (String × Plugin)) (k : String) (p : Plugin),
      (k, p) ∈ l → p.isInitialized = true → PEv.shutdownCall k ∈ (shutdownAllGo l).2) ∧
    (∀ (pre : List (String × Plugin)) (k : String) (p : Plugin) (msg : String)
        (post : List (String × Plugin)),
      (∀ e ∈ pre, e.2.spec.startBeh.raisesB = false) →
      p.spec.startBeh = .raises msg →
      (startAllGo (pre ++ (k, p) :: post)).2.2 = false ∧
      (startAllGo (pre ++ (k, p) :: post)).2.1 =
        (startAllGo pre).2.1 ++ [PEv.startCall k]) := by
  refine ⟨?_, ?_, ?_⟩
  · intro l k p hmem
    induction l with
    | nil => cases hmem
    | cons e rest ih =>
        obtain ⟨ek, ep⟩ := e
        rcases List.mem_cons.mp hmem with heq | hrest
        · cases heq
          cases hb : p.spec.stopBeh <;>
            simp [stopAllGo, hb]
        · cases hb : ep.spec.stopBeh <;>
            simpa [stopAllGo, hb] using Or.inr (ih hrest)
  · intro l k p hmem hini
    induction l with
    | nil => cases hmem
    | cons e rest ih =>
        obtain ⟨ek, ep⟩ := e
        rcases List.mem_cons.mp hmem with heq | hrest
        · cases heq
          cases hb : p.spec.shutBeh <;>
            simp [shutdownAllGo, hb, hini]
        · by_cases hi : ep.isInitialized = true
          · cases hb : ep.spec.shutBeh <;>
              simpa [shutdownAllGo, hb, hi] using Or.inr (ih hrest)
          · have hi' : ep.isInitialized = false := by simpa using hi
            simpa [shutdownAllGo, hi'] using ih hrest
  · intro pre k p msg post hpre hbeh
    induction pre with
    | nil => simp [startAllGo, hbeh]
    | cons e rest ih =>
        obtain ⟨ek, ep⟩ := e
        have hee := hpre (ek, ep) (List.mem_cons_self _ _)
        have ihh := ih (fun x hx => hpre x (List.mem_cons_of_mem _ hx))
        cases hb : ep.spec.startBeh with
        | base => simpa [startAllGo, hb, ihh.2] using ihh.1
        | raises m =>
            rw [hb] at hee
            simp [MBeh.raisesB] at hee

/-- C3 witness: the amended theorem's three parts applied to concrete
registries: a stopped plugin, an initialized plugin, and a raising
`start()` ahead of a healthy plugin. -/
theorem c3_witness :
    PEv.stopCall "w@1" ∈
      (stopAllGo [("w@1", Plugin.mk { name := "w", version := "1" } true true)]).2 ∧
    PEv.shutdownCall "w@1" ∈
      (shutdownAllGo [("w@1", Plugin.mk { name := "w", version := "1" } true true)]).2 ∧
    ((startAllGo ([] ++ ("a@1", freshPlugin specStartRaises) ::
        [("b@1", freshPlugin specInitTrue)])).2.2 = false ∧
      (startAllGo ([] ++ ("a@1", freshPlugin specStartRaises) ::
        [("b@1", freshPlugin specInitTrue)])).2.1 =
        (startAllGo []).2.1 ++ [PEv.startCall "a@1"]) :=
  ⟨c3_theorem.1 _ "w@1" (Plugin.mk { name := "w", version := "1" } true true)
      (List.mem_singleton.mpr rfl),
   c3_theorem.2.1 _ "w@1" (Plugin.mk { name := "w", version := "1" } true true)
      (List.mem_singleton.mpr rfl) rfl,
   c3_theorem.2.2 [] "a@1" (freshPlugin specStartRaises) "boom"
      [("b@1", freshPlugin specInitTrue)] (by decide) rfl⟩

/-! ## Unregister ordering (C8) -/

/-- After `del d[key]`, looking up `key` fails. -/
theorem lookup_deleteKey {α : Type} (l : List (String × α)) (key : String) :
    (deleteKey l key).lookup key = none := by
  induction l with
  | nil => rfl
  | cons e rest ih =>
      obtain ⟨a, b⟩ := e
      by_cases h : a = key
      · simpa [deleteKey, h] using ih
      · have hne : (a != key) = true := bne_iff_ne.mpr h
        have hne2 : (key == a) = false := beq_eq_false_iff_ne.mpr (Ne.symm h)
        simpa [deleteKey, hne, List.lookup, hne2] using ih

/-- C8: unregistering a Running, Initialized plugin (whose `stop` is the
inherited flag-toggling method and whose `shutdown` returns normally)
performs exactly one `stop()` call followed by exactly one `shutdown()`
call, in that order, and then removes the entry from both the plugin map
and the metadata map; and `unregister` on an absent key is a harmless
no-op, so it is safe to call in any state. -/
theorem c8_theorem :
    (∀ (σ : Registry) (name : String) (v : Option String) (p : Plugin),
      σ.plugins.lookup (fullNameOf name v) = some p →
      p.isRunning = true → p.isInitialized = true →
      p.spec.stopBeh = .base → p.spec.shutBeh = .ok →
      (unregister σ name v).2.1 =
        [PEv.stopCall (fullNameOf name v), PEv.shutdownCall (fullNameOf name v)] ∧
      (unregister σ name v).1.plugins.lookup (fullNameOf name v) = none ∧
      (unregister σ name v).1.metadata.lookup (fullNameOf name v) = none ∧
      (unregister σ name v).2.2 = .ok ()) ∧
    (∀ (σ : Registry) (name : String) (v : Option String),
      σ.plugins.lookup (fullNameOf name v) = none →
      unregister σ name v = (σ, [], .ok ())) := by
  constructor
  · intro σ name v p hlook hrun hini hstop hshut
    simp [unregister, hlook, hrun, hini, hstop, hshut, lookup_deleteKey]
  · intro σ name v h
    simp [unregister, h]

/-- C8 witness: the theorem applied to a registry whose `"w@1"` plugin is
Running and Initialized, and to a lookup miss. -/
theorem c8_witness :
    ((unregister regRunning "w" (some "1")).2.1 =
      [PEv.stopCall (fullNameOf "w" (some "1")),
       PEv.shutdownCall (fullNameOf "w" (some "1"))] ∧
     (unregister regRunning "w" (some "1")).1.plugins.lookup
        (fullNameOf "w" (some "1")) = none ∧
     (unregister regRunning "w" (some "1")).1.metadata.lookup
        (fullNameOf "w" (some "1")) = none ∧
     (unregister regRunning "w" (some "1")).2.2 = .ok ()) ∧
    unregister regRunning "zzz" none = (regRunning, [], .ok ()) :=
  ⟨c8_theorem.1 regRunning "w" (some "1")
      ⟨{ name := "w", version := "1" }, true, true⟩ rfl rfl rfl rfl rfl,
   c8_theorem.2 regRunning "zzz" none rfl⟩

/-! ## Version-qualified lookup (C10) -/

/-- C10 counterexample: plugin `specPlainAB` (name `"a"`, version `"b"`)
registers under key `"a@b"`; plugin `specAtName` (name `"a@b"`, version
`"c"`) registers under `"a@b@c"`.  Both registrations succeed, yet
`get("a@b")` — the bare name of the *second* plugin, no version — returns
the *first* plugin rather than null, and `unregister("a@b")` removes the
first plugin's entry rather than removing nothing. -/
theorem c10_counterexample :
    (register Registry.empty specPlainAB).2 = true ∧
    (register (register Registry.empty specPlainAB).1 specAtName).2 = true ∧
    getPlugin (register (register Registry.empty specPlainAB).1 specAtName).1
        "a@b" none = some (freshPlugin specPlainAB) ∧
    (unregister (register (register Registry.empty specPlainAB).1 specAtName).1
        "a@b" none).1.plugins.length = 1 := by
  refine ⟨rfl, rfl, rfl, rfl⟩

/-- Lookup distributes over `++` when the key misses the first list. -/
theorem lookup_append_of_none {α : Type} (l₁ l₂ : List (String × α)) (k : String)
    (h : l₁.lookup k = none) : (l₁ ++ l₂).lookup k = l₂.lookup k := by
  induction l₁ with
  | nil => rfl
  | cons e rest ih =>
      obtain ⟨a, b⟩ := e
      by_cases hk : k = a
      · simp [List.lookup, hk] at h
      · have hk2 : (k == a) = false := beq_eq_false_iff_ne.mpr hk
        simp only [List.cons_append, List.lookup, hk2] at h ⊢
        exact ih h

/-- C10 (amended): a full key `name@version` never equals the bare
`name`, so `get(name)`/`unregister(name)` without a version can never
address the entry stored under `name@version`.  Whenever no registered
*key* happens to equal the bare name, `get(name)` returns null and
`unregister(name)` removes nothing; after a successful registration (with
a nonempty version) retrieval with the exact name and version returns the
stored instance; and in a registry whose keys all have the `name@version`
shape, retrieval of a plugin by its name succeeds only with its exact
version.  (The unamended claim fails only when some other plugin's full
key collides with this plugin's bare name, as in the counterexample.) -/
theorem c10_theorem :
    (∀ name version : String, name ++ "@" ++ version ≠ name) ∧
    (∀ (σ : Registry) (name : String), σ.plugins.lookup name = none →
      getPlugin σ name none = none ∧ unregister σ name none = (σ, [], .ok ())) ∧
    (∀ (σ : Registry) (s : PluginSpec), (register σ s).2 = true → s.version ≠ "" →
      getPlugin (register σ s).1 s.name (some s.version) = some (freshPlugin s)) ∧
    (∀ (σ : Registry)
      (hwf : ∀ k q, σ.plugins.lookup k = some q →
        k = q.spec.name ++ "@" ++ q.spec.version)
      (name v : String) (p : Plugin),
      getPlugin σ name (some v) = some p → v ≠ "" → name = p.spec.name →
      v = p.spec.version) := by
  refine ⟨?_, ?_, ?_, ?_⟩
  · intro name version h
    have hlen := congrArg String.length h
    have h1 : "@".length = 1 := rfl
    simp [String.length_append, h1] at hlen
    omega
  · intro σ name h
    exact ⟨by simpa [getPlugin, fullNameOf] using h, by simp [unregister, fullNameOf, h]⟩
  · intro σ s hreg hver
    cases hl : σ.plugins.lookup (s.name ++ "@" ++ s.version) with
    | some q => simp [register, hl] at hreg
    | none =>
        cases hd : s.depsOk with
        | false => simp [register, hl, hd] at hreg
        | true =>
            have hplug : (register σ s).1.plugins =
                σ.plugins ++ [(s.name ++ "@" ++ s.version, freshPlugin s)] := by
              simp [register, hl, hd]
            simp only [getPlugin, fullNameOf, if_neg hver, hplug]
            rw [lookup_append_of_none _ _ _ hl]
            simp [List.lookup]
  · intro σ hwf name v p hget hv hname
    have hkey : σ.plugins.lookup (name ++ "@" ++ v) = some p := by
      simpa [getPlugin, fullNameOf, if_neg hv] using hget
    have heq := hwf _ _ hkey
    rw [← hname] at heq
    have hdata := congrArg String.data heq
    simp only [String.data_append] at hdata
    exact String.ext (List.append_cancel_left hdata)

/-- C10 witness: the amended theorem applied concretely — a miss on an
unregistered bare name, exact-version retrieval after registration, and
version necessity in a single-entry well-formed registry. -/
theorem c10_witness :
    (getPlugin (register Registry.empty specPlainAB).1 "zzz" none = none ∧
      unregister (register Registry.empty specPlainAB).1 "zzz" none =
        ((register Registry.empty specPlainAB).1, [], .ok ())) ∧
    getPlugin (register Registry.empty specPlainAB).1
      specPlainAB.name (some specPlainAB.version) = some (freshPlugin specPlainAB) :=
  ⟨c10_theorem.2.1 (register Registry.empty specPlainAB).1 "zzz" rfl,
   c10_theorem.2.2.1 Registry.empty specPlainAB rfl (by decide)⟩

/-! ## Sequence dispatch (C7) -/

/-- Every `callOne` result carries either no `error` entry or a false
`success` flag. -/
theorem callOne_shape (ev : Call) (x : Except String TaskResult) (action : String) :
    (callOne ev x action).2.error = none ∨ (callOne ev x action).2.success = false := by
  cases x <;> simp [callOne, fromTask, errDict]

/-- Every `_execute_single` result dict carries either no `error` entry or
a false `success` flag: the `except` branch is the only writer of
`error`, and it always pairs it with `success = False`. -/
theorem execSingle_error_shape (rb : Robot) (a : String) (p : Params) :
    (execSingle rb a p).2.error = none ∨ (execSingle rb a p).2.success = false := by
  by_cases h1 : a = "forward"
  · subst h1; simp only [execSingle]; norm_num
    exact callOne_shape _ _ _
  by_cases h2 : a = "backward"
  · subst h2; simp only [execSingle]; norm_num
    exact callOne_shape _ _ _
  by_cases h3 : a = "turn_left"
  · subst h3; simp only [execSingle]; norm_num
    cases rb.move 0 0 (1/2) with
    | error e => simp [errDict]
    | ok r =>
        cases rb.stopM with
        | error e => simp [errDict]
        | ok r2 => simp [fromTask]
  by_cases h4 : a = "turn_right"
  · subst h4; simp only [execSingle]; norm_num
    cases rb.move 0 0 (-(1/2)) with
    | error e => simp [errDict]
    | ok r =>
        cases rb.stopM with
        | error e => simp [errDict]
        | ok r2 => simp [fromTask]
  by_cases h5 : a = "stand"
  · subst h5; simp only [execSingle]; norm_num
    exact callOne_shape _ _ _
  by_cases h6 : a = "sit"
  · subst h6; simp only [execSingle]; norm_num
    exact callOne_shape _ _ _
  by_cases h7 : a = "lie_down"
  · subst h7; simp only [execSingle]; norm_num
    exact callOne_shape _ _ _
  by_cases h8 : a = "wave"
  · subst h8; simp only [execSingle]; norm_num
    exact callOne_shape _ _ _
  by_cases h9 : a = "handshake"
  · subst h9; simp only [execSingle]; norm_num
    exact callOne_shape _ _ _
  by_cases h10 : a = "stop"
  · subst h10; simp only [execSingle]; norm_num
    exact callOne_shape _ _ _
  by_cases h11 : a = "go_to"
  · subst h11; simp only [execSingle]; norm_num
    exact callOne_shape _ _ _
  by_cases h12 : a = "get_battery"
  · subst h12; simp only [execSingle]; norm_num
    cases rb.getStateM with
    | error e => simp [errDict]
    | ok st => simp
  by_cases h13 : a = "get_pose"
  · subst h13; simp only [execSingle]; norm_num
    cases rb.getStateM with
    | error e => simp [errDict]
    | ok st => simp
  · simp only [execSingle, if_neg h1, if_neg h2, if_neg h3, if_neg h4, if_neg h5,
      if_neg h6, if_neg h7, if_neg h8, if_neg h9, if_neg h10, if_neg h11,
      if_neg h12, if_neg h13]
    simp [fromTask]

/-- C7: `_execute_sequence` runs every sub-task in list order — its event
trace is the concatenation of the sub-tasks' traces and its result list
has one entry per sub-task, wherever the sub-task sits in the list — and
its overall success flag is the conjunction of all sub-task success
flags.  Moreover an exception during one sub-task is converted into that
sub-task's failed result dict (`{"success": False, "error": …}` — an
`error` entry only ever appears with `success = False`), so the remaining
sub-tasks still execute. -/
theorem c7_theorem :
    (∀ (rb : Robot) (pre post : List (String × Params)) (t : String × Params),
      (execSequence rb (pre ++ t :: post)).1 =
        (execSequence rb pre).1 ++ ((execSingle rb t.1 t.2).1 ++ (execSequence rb post).1) ∧
      (execSequence rb (pre ++ t :: post)).2.1 =
        ((execSequence rb pre).2.1 && ((execSingle rb t.1 t.2).2.success &&
          (execSequence rb post).2.1)) ∧
      (execSequence rb (pre ++ t :: post)).2.2 =
        (execSequence rb pre).2.2 ++ (execSingle rb t.1 t.2).2 :: (execSequence rb post).2.2) ∧
    (∀ (rb : Robot) (a : String) (p : Params),
      (execSingle rb a p).2.error.isSome = true → (execSingle rb a p).2.success = false) := by
  constructor
  · intro rb pre post t
    refine ⟨?_, ?_, ?_⟩ <;>
      simp [execSequence, List.map_append, List.all_append]
  · intro rb a p h
    rcases execSingle_error_shape rb a p with he | hf
    · rw [he] at h
      cases h
    · exact hf

/-- C7 witness: a three-task sequence on an adapter whose `play_action`
raises — the middle task fails by exception, the outer tasks still run,
and the overall flag is the conjunction. -/
theorem c7_witness :
    ((execSequence rbw ([("stand", [])] ++ ("wave", []) :: [("sit", [])])).2.1 =
      ((execSequence rbw [("stand", [])]).2.1 && ((execSingle rbw "wave" []).2.success &&
        (execSequence rbw [("sit", [])]).2.1)) ∧
     (execSequence rbw ([("stand", [])] ++ ("wave", []) :: [("sit", [])])).1 =
      (execSequence rbw [("stand", [])]).1 ++ ((execSingle rbw "wave" []).1 ++
        (execSequence rbw [("sit", [])]).1)) ∧
    (execSingle rbw "wave" []).2.success = false :=
  ⟨⟨((c7_theorem.1 rbw [("stand", [])] [("sit", [])] ("wave", [])).2).1,
    (c7_theorem.1 rbw [("stand", [])] [("sit", [])] ("wave", [])).1⟩,
   c7_theorem.2 rbw "wave" [] rfl⟩

/-! ## Plugin state machine (C4)

Helper lemmas: each registry operation can only *produce* a Running
plugin by performing a `start()` call; every other operation leaves a
plugin's `_is_running` derivable from the previous state. -/

/-- Lookup in an in-place-updated map: the hit is the new value at the
updated key, or the old value elsewhere. -/
theorem lookup_updateEntry (l : List (String × Plugin)) (key : String) (p : Plugin)
    (k : String) (q : Plugin) (h : (updateEntry l key p).lookup k = some q) :
    (k = key ∧ q = p) ∨ (¬ k = key ∧ l.lookup k = some q) := by
  induction l with
  | nil => cases h
  | cons e rest ih =>
      obtain ⟨a, b⟩ := e
      rw [show updateEntry ((a, b) :: rest) key p =
          (if a = key then (key, p) else (a, b)) :: updateEntry rest key p from rfl] at h
      by_cases hak : a = key
      · rw [if_pos hak] at h
        by_cases hk : k = key
        · subst hk
          simp only [List.lookup, beq_self_eq_true] at h
          exact Or.inl ⟨rfl, (Option.some.inj h).symm⟩
        · have hk2 : (k == key) = false := beq_eq_false_iff_ne.mpr hk
          simp only [List.lookup, hk2] at h
          rcases ih h with h1 | h2
          · exact Or.inl h1
          · refine Or.inr ⟨hk, ?_⟩
            have hka : (k == a) = false :=
              beq_eq_false_iff_ne.mpr (by rw [hak]; exact hk)
            simp only [List.lookup, hka]
            exact h2.2
      · rw [if_neg hak] at h
        by_cases hk : k = a
        · subst hk
          simp only [List.lookup, beq_self_eq_true] at h ⊢
          exact Or.inr ⟨fun hkk => hak hkk, h⟩
        · have hka : (k == a) = false := beq_eq_false_iff_ne.mpr hk
          simp only [List.lookup, hka] at h ⊢
          rcases ih h with h1 | h2
          · exact Or.inl h1
          · exact Or.inr ⟨h2.1, h2.2⟩

/-- Lookup in an appended map hits one of the two parts. -/
theorem lookup_append_cases {α : Type} (l₁ l₂ : List (String × α)) (k : String) (p : α)
    (h : (l₁ ++ l₂).lookup k = some p) :
    l₁.lookup k = some p ∨ l₂.lookup k = some p := by
  induction l₁ with
  | nil => exact Or.inr h
  | cons e rest ih =>
      obtain ⟨a, b⟩ := e
      by_cases hk : k = a
      · subst hk
        simp only [List.cons_append, List.lookup, beq_self_eq_true] at h ⊢
        exact Or.inl h
      · have hk2 : (k == a) = false := beq_eq_false_iff_ne.mpr hk
        simp only [List.cons_append, List.lookup, hk2] at h ⊢
        exact ih h

/-- Lookup after `del` hits the original map. -/
theorem lookup_deleteKey_some {α : Type} (l : List (String × α)) (key k : String) (p : α)
    (h : (deleteKey l key).lookup k = some p) : l.lookup k = some p := by
  induction l with
  | nil => cases h
  | cons e rest ih =>
      obtain ⟨a, b⟩ := e
      by_cases hak : a = key
      · subst hak
        have hbne : (a != a) = false := by simp
        simp only [deleteKey, List.filter, hbne] at h
        by_cases hk : k = a
        · subst hk
          rw [show List.filter (fun e => e.1 != k) rest = deleteKey rest k from rfl,
            lookup_deleteKey rest k] at h
          cases h
        · have hk2 : (k == a) = false := beq_eq_false_iff_ne.mpr hk
          simp only [List.lookup, hk2]
          exact ih h
      · have hbne : (a != key) = true := bne_iff_ne.mpr hak
        simp only [deleteKey, List.filter, hbne] at h
        by_cases hk : k = a
        · subst hk
          simp only [List.lookup, beq_self_eq_true] at h ⊢
          exact h
        · have hk2 : (k == a) = false := beq_eq_false_iff_ne.mpr hk
          simp only [List.lookup, hk2] at h ⊢
          exact ih h

/-- `initialize_all` never makes a plugin Running. -/
theorem initAllGo_running (l : List (String × Plugin)) (k : String) (p : Plugin)
    (h : (initAllGo l).1.lookup k = some p) (hr : p.isRunning = true) :
    ∃ q, l.lookup k = some q ∧ q.isRunning = true := by
  induction l with
  | nil => cases h
  | cons e rest ih =>
      obtain ⟨a, b⟩ := e
      by_cases hib : b.isInitialized = true
      · simp only [initAllGo, if_pos hib] at h
        by_cases hk : k = a
        · subst hk
          simp only [List.lookup, beq_self_eq_true] at h ⊢
          exact ⟨b, rfl, by rw [← Option.some.inj h] at hr; exact hr⟩
        · have hk2 : (k == a) = false := beq_eq_false_iff_ne.mpr hk
          simp only [List.lookup, hk2] at h ⊢
          exact ih h
      · cases hbeh : b.spec.initBeh with
        | retTrue =>
            simp only [initAllGo, if_neg hib, hbeh] at h
            by_cases hk : k = a
            · subst hk
              simp only [List.lookup, beq_self_eq_true] at h ⊢
              refine ⟨b, rfl, ?_⟩
              rw [← Option.some.inj h] at hr
              simpa using hr
            · have hk2 : (k == a) = false := beq_eq_false_iff_ne.mpr hk
              simp only [List.lookup, hk2] at h ⊢
              exact ih h
        | retFalse =>
            simp only [initAllGo, if_neg hib, hbeh] at h
            by_cases hk : k = a
            · subst hk
              simp only [List.lookup, beq_self_eq_true] at h ⊢
              exact ⟨b, rfl, by rw [← Option.some.inj h] at hr; exact hr⟩
            · have hk2 : (k == a) = false := beq_eq_false_iff_ne.mpr hk
              simp only [List.lookup, hk2] at h ⊢
              exact ih h
        | raises m =>
            simp only [initAllGo, if_neg hib, hbeh] at h
            exact ⟨p, h, hr⟩

/-- A plugin Running after `start_all` either had its `start()` called in
that loop or was Running already. -/
theorem startAllGo_running (l : List (String × Plugin)) (k : String) (p : Plugin)
    (h : (startAllGo l).1.lookup k = some p) (hr : p.isRunning = true) :
    PEv.startCall k ∈ (startAllGo l).2.1 ∨
      ∃ q, l.lookup k = some q ∧ q.isRunning = true := by
  induction l with
  | nil => cases h
  | cons e rest ih =>
      obtain ⟨a, b⟩ := e
      cases hbeh : b.spec.startBeh with
      | raises m =>
          simp only [startAllGo, hbeh] at h ⊢
          exact Or.inr ⟨p, h, hr⟩
      | base =>
          simp only [startAllGo, hbeh] at h ⊢
          by_cases hk : k = a
          · subst hk
            exact Or.inl (List.mem_cons_self _ _)
          · have hk2 : (k == a) = false := beq_eq_false_iff_ne.mpr hk
            simp only [List.lookup, hk2] at h ⊢
            rcases ih h with hin | ⟨q, hq, hqr⟩
            · exact Or.inl (List.mem_cons_of_mem _ hin)
            · exact Or.inr ⟨q, hq, hqr⟩

/-- `stop_all` never makes a plugin Running. -/
theorem stopAllGo_running (l : List (String × Plugin)) (k : String) (p : Plugin)
    (h : (stopAllGo l).1.lookup k = some p) (hr : p.isRunning = true) :
    ∃ q, l.lookup k = some q ∧ q.isRunning = true := by
  induction l with
  | nil => cases h
  | cons e rest ih =>
      obtain ⟨a, b⟩ := e
      cases hbeh : b.spec.stopBeh with
      | raises m =>
          simp only [stopAllGo, hbeh] at h
          by_cases hk : k = a
          · subst hk
            simp only [List.lookup, beq_self_eq_true] at h ⊢
            exact ⟨b, rfl, by rw [← Option.some.inj h] at hr; exact hr⟩
          · have hk2 : (k == a) = false := beq_eq_false_iff_ne.mpr hk
            simp only [List.lookup, hk2] at h ⊢
            exact ih h
      | base =>
          simp only [stopAllGo, hbeh] at h
          by_cases hk : k = a
          · subst hk
            simp only [List.lookup, beq_self_eq_true] at h
            rw [← Option.some.inj h] at hr
            simp at hr
          · have hk2 : (k == a) = false := beq_eq_false_iff_ne.mpr hk
            simp only [List.lookup, hk2] at h ⊢
            exact ih h

/-- `shutdown_all` never makes a plugin Running. -/
theorem shutdownAllGo_running (l : List (String × Plugin)) (k : String) (p : Plugin)
    (h : (shutdownAllGo l).1.lookup k = some p) (hr : p.isRunning = true) :
    ∃ q, l.lookup k = some q ∧ q.isRunning = true := by
  induction l with
  | nil => cases h
  | cons e rest ih =>
      obtain ⟨a, b⟩ := e
      by_cases hib : b.isInitialized = true
      · cases hbeh : b.spec.shutBeh with
        | raises m =>
            simp only [shutdownAllGo, if_pos hib, hbeh] at h
            by_cases hk : k = a
            · subst hk
              simp only [List.lookup, beq_self_eq_true] at h ⊢
              exact ⟨b, rfl, by rw [← Option.some.inj h] at hr; exact hr⟩
            · have hk2 : (k == a) = false := beq_eq_false_iff_ne.mpr hk
              simp only [List.lookup, hk2] at h ⊢
              exact ih h
        | ok =>
            simp only [shutdownAllGo, if_pos hib, hbeh] at h
            by_cases hk : k = a
            · subst hk
              simp only [List.lookup, beq_self_eq_true] at h ⊢
              refine ⟨b, rfl, ?_⟩
              rw [← Option.some.inj h] at hr
              simpa using hr
            · have hk2 : (k == a) = false := beq_eq_false_iff_ne.mpr hk
              simp only [List.lookup, hk2] at h ⊢
              exact ih h
      · simp only [shutdownAllGo, if_neg hib] at h
        by_cases hk : k = a
        · subst hk
          simp only [List.lookup, beq_self_eq_true] at h ⊢
          exact ⟨b, rfl, by rw [← Option.some.inj h] at hr; exact hr⟩
        · have hk2 : (k == a) = false := beq_eq_false_iff_ne.mpr hk
          simp only [List.lookup, hk2] at h ⊢
          exact ih h

/-- `unregister` never makes a plugin Running. -/
theorem unregister_running (σ : Registry) (n : String) (v : Option String)
    (k : String) (p : Plugin)
    (h : (unregister σ n v).1.plugins.lookup k = some p) (hr : p.isRunning = true) :
    ∃ q, σ.plugins.lookup k = some q ∧ q.isRunning = true := by
  simp only [unregister] at h
  cases hl : σ.plugins.lookup (fullNameOf n v) with
  | none =>
      simp only [hl] at h
      exact ⟨p, h, hr⟩
  | some p0 =>
      simp only [hl] at h
      by_cases hrun : p0.isRunning = true
      · simp only [if_pos hrun] at h
        cases hsb : p0.spec.stopBeh with
        | raises m =>
            simp only [hsb] at h
            exact ⟨p, h, hr⟩
        | base =>
            simp only [hsb] at h
            by_cases hib : p0.isInitialized = true
            · simp only [hib, if_true] at h
              cases hshb : p0.spec.shutBeh with
              | raises m =>
                  simp only [hshb] at h
                  rcases lookup_updateEntry σ.plugins (fullNameOf n v)
                      { spec := p0.spec, isInitialized := true, isRunning := false }
                      k p h with ⟨hkk, hpp⟩ | ⟨hkk, horig⟩
                  · rw [hpp] at hr
                    simp at hr
                  · exact ⟨p, horig, hr⟩
              | ok =>
                  simp only [hshb] at h
                  exact ⟨p, lookup_deleteKey_some _ _ _ _ h, hr⟩
            · simp only [hib, if_false, Bool.false_eq_true] at h
              exact ⟨p, lookup_deleteKey_some _ _ _ _ h, hr⟩
      · simp only [if_neg hrun] at h
        by_cases hib : p0.isInitialized = true
        · simp only [if_pos hib] at h
          cases hshb : p0.spec.shutBeh with
          | raises m =>
              simp only [hshb] at h
              exact ⟨p, h, hr⟩
          | ok =>
              simp only [hshb] at h
              exact ⟨p, lookup_deleteKey_some _ _ _ _ h, hr⟩
        · simp only [if_neg hib] at h
          exact ⟨p, lookup_deleteKey_some _ _ _ _ h, hr⟩

/-- `register` never makes a plugin Running (a fresh instance starts with
both flags false). -/
theorem register_running (σ : Registry) (s : PluginSpec) (k : String) (p : Plugin)
    (h : (register σ s).1.plugins.lookup k = some p) (hr : p.isRunning = true) :
    ∃ q, σ.plugins.lookup k = some q ∧ q.isRunning = true := by
  simp only [register] at h
  by_cases h1 : (σ.plugins.lookup (s.name ++ "@" ++ s.version)).isSome
  · rw [if_pos h1] at h
    exact ⟨p, h, hr⟩
  · rw [if_neg h1] at h
    by_cases h2 : s.depsOk
    · rw [if_neg (by simp [h2])] at h
      simp only at h
      rcases lookup_append_cases _ _ _ _ h with hfst | hsnd
      · exact ⟨p, hfst, hr⟩
      · by_cases hk : k = s.name ++ "@" ++ s.version
        · subst hk
          simp only [List.lookup, beq_self_eq_true] at hsnd
          rw [← Option.some.inj hsnd] at hr
          simp [freshPlugin] at hr
        · have hk2 : (k == s.name ++ "@" ++ s.version) = false :=
            beq_eq_false_iff_ne.mpr hk
          simp only [List.lookup, hk2] at hsnd
          cases hsnd
    · rw [if_pos (by simp [h2])] at h
      exact ⟨p, h, hr⟩

/-- One step: a plugin Running afterwards either had a `start()` call
during this operation or was Running before. -/
theorem stepOp_running (σ : Registry) (op : Op) (k : String) (p : Plugin)
    (h : (stepOp σ op).1.plugins.lookup k = some p) (hr : p.isRunning = true) :
    PEv.startCall k ∈ (stepOp σ op).2 ∨
      ∃ q, σ.plugins.lookup k = some q ∧ q.isRunning = true := by
  cases op with
  | registerOp s =>
      exact Or.inr (register_running σ s k p h hr)
  | unregisterOp n v =>
      exact Or.inr (unregister_running σ n v k p h hr)
  | initializeAllOp =>
      simp only [stepOp, initializeAll] at h
      exact Or.inr (initAllGo_running σ.plugins k p h hr)
  | startAllOp =>
      simp only [stepOp, startAll] at h ⊢
      exact startAllGo_running σ.plugins k p h hr
  | stopAllOp =>
      simp only [stepOp, stopAll] at h
      exact Or.inr (stopAllGo_running σ.plugins k p h hr)
  | shutdownAllOp =>
      simp only [stepOp, shutdownAll] at h
      exact Or.inr (shutdownAllGo_running σ.plugins k p h hr)
  | initP key =>
      simp only [stepOp] at h
      cases hl : σ.plugins.lookup key <;> simp only [hl] at h <;> exact Or.inr ⟨p, h, hr⟩
  | startP key =>
      simp only [stepOp] at h ⊢
      cases hl : σ.plugins.lookup key with
      | none =>
          simp only [hl] at h
          exact Or.inr ⟨p, h, hr⟩
      | some p0 =>
          simp only [hl] at h ⊢
          cases hbeh : p0.spec.startBeh with
          | raises m =>
              simp only [hbeh] at h ⊢
              exact Or.inr ⟨p, h, hr⟩
          | base =>
              simp only [hbeh] at h ⊢
              rcases lookup_updateEntry σ.plugins key { p0 with isRunning := true }
                  k p h with ⟨hkk, _⟩ | ⟨_, horig⟩
              · subst hkk
                exact Or.inl (List.mem_singleton.mpr rfl)
              · exact Or.inr ⟨p, horig, hr⟩
  | stopP key =>
      simp only [stepOp] at h
      cases hl : σ.plugins.lookup key with
      | none =>
          simp only [hl] at h
          exact Or.inr ⟨p, h, hr⟩
      | some p0 =>
          simp only [hl] at h
          cases hbeh : p0.spec.stopBeh with
          | raises m =>
              simp only [hbeh] at h
              exact Or.inr ⟨p, h, hr⟩
          | base =>
              simp only [hbeh] at h
              rcases lookup_updateEntry σ.plugins key { p0 with isRunning := false }
                  k p h with ⟨_, hpp⟩ | ⟨_, horig⟩
              · rw [hpp] at hr
                simp at hr
              · exact Or.inr ⟨p, horig, hr⟩
  | shutdownP key =>
      simp only [stepOp] at h
      cases hl : σ.plugins.lookup key <;> simp only [hl] at h <;> exact Or.inr ⟨p, h, hr⟩

/-- Over a whole operation sequence: a plugin Running at the end either
had a `start()` call somewhere in the trace or was Running at the
beginning. -/
theorem runOpsFrom_running (ops : List Op) (σ : Registry) (k : String) (p : Plugin)
    (h : (runOpsFrom σ ops).1.plugins.lookup k = some p) (hr : p.isRunning = true) :
    PEv.startCall k ∈ (runOpsFrom σ ops).2 ∨
      ∃ q, σ.plugins.lookup k = some q ∧ q.isRunning = true := by
  induction ops generalizing σ with
  | nil => exact Or.inr ⟨p, h, hr⟩
  | cons op ops ih =>
      simp only [runOpsFrom] at h ⊢
      rcases ih (stepOp σ op).1 h with hin | ⟨q, hq, hqr⟩
      · exact Or.inl (List.mem_append.mpr (Or.inr hin))
      · rcases stepOp_running σ op k q hq hqr with hin2 | hex
        · exact Or.inl (List.mem_append.mpr (Or.inl hin2))
        · exact Or.inr hex

/-- C4 counterexample: after `register(specOk)` followed by `start_all()`
— a perfectly legal operation sequence — the plugin `"ok@1"` is Running
(`_is_running = true`) while `_is_initialized` is still false: the state
machine reaches Running without ever passing through Initialized, because
`PluginBase.start()` does not check `_is_initialized`. -/
theorem c4_counterexample :
    (runOps [.registerOp specOk, .startAllOp]).1.plugins.lookup "ok@1" =
      some ⟨specOk, false, true⟩ ∧
    (Plugin.mk specOk false true).isRunning = true ∧
    (Plugin.mk specOk false true).isInitialized = false :=
  ⟨rfl, rfl, rfl⟩

/-- C4 (amended): what the operation semantics does guarantee is that a
plugin is Running only if some `start()` call (direct or via
`start_all()`) occurs in the trace — no other operation sets
`_is_running`.  The stronger claimed invariant "Running implies previously
Initialized" fails, because `start()` succeeds from the merely-Registered
state. -/
theorem c4_theorem (ops : List Op) (k : String) (p : Plugin)
    (h : (runOps ops).1.plugins.lookup k = some p) (hr : p.isRunning = true) :
    PEv.startCall k ∈ (runOps ops).2 := by
  rcases runOpsFrom_running ops Registry.empty k p h hr with hin | ⟨q, hq, _⟩
  · exact hin
  · cases hq

/-- C4 witness: the amended theorem applied to the register-then-start-all
trace. -/
theorem c4_witness :
    PEv.startCall "ok@1" ∈ (runOps [.registerOp specOk, .startAllOp]).2 :=
  c4_theorem [.registerOp specOk, .startAllOp] "ok@1" ⟨specOk, false, true⟩ rfl rfl

end OpenClaw
